import Mathlib

/-!
Verification of the energy-minimization orchestration engine (`Min` class,
`min.cpp`) of a distributed-memory particle simulator.

The C++ `double` values are modelled as exact rationals (`ℚ`); distributed
MPI reductions over the set of ranks are modelled as folds over the list of
per-rank local partitions.
-/

namespace Lammps

/-- A C++ `double` is modelled as an exact rational number. -/
abbrev R := ℚ

/-- One MPI rank's local force state, as read by `Min::fnorm_sqr` /
`Min::fnorm_inf`: `fvec` is the flattened local atom force buffer
(`fvec[0..nvec)`), `fextra_atom` holds one per-atom extra-DOF force buffer
per registered slot (`fextra_atom[m][0..extra_nlen[m])`). -/
structure Partition where
  fvec : List R
  fextra_atom : List (List R)

/-- The `local_norm2_sqr` accumulation of `Min::fnorm_sqr`: squares of every
local atom force component plus squares of every local per-atom extra-DOF
force component. -/
def local_norm2_sqr (p : Partition) : R :=
  (p.fvec.map fun x => x * x).sum +
    (p.fextra_atom.map fun fatom => (fatom.map fun x => x * x).sum).sum

/-- `Min::fnorm_sqr`: per-rank `local_norm2_sqr`, combined by
`MPI_Allreduce(...,MPI_SUM,...)` over all ranks, then the squares of the
global extra-DOF forces `fextra[0..nextra_global)` added after the
reduction. -/
def fnorm_sqr (parts : List Partition) (fextra : List R) : R :=
  (parts.map local_norm2_sqr).sum + (fextra.map fun x => x * x).sum

/-- The `local_norm_inf` accumulation of `Min::fnorm_inf`: running maximum,
starting from `0.0`, of `fabs` of every local atom force component and every
local per-atom extra-DOF force component. -/
def local_norm_inf (p : Partition) : R :=
  p.fextra_atom.foldl (fun acc fatom => fatom.foldl (fun a x => max |x| a) acc)
    (p.fvec.foldl (fun a x => max |x| a) 0)

/-- `Min::fnorm_inf`: per-rank `local_norm_inf`, combined by
`MPI_Allreduce(...,MPI_MAX,...)` over all ranks, then `fabs` of the global
extra-DOF forces folded in after the reduction. -/
def fnorm_inf (parts : List Partition) (fextra : List R) : R :=
  fextra.foldl (fun a x => max |x| a)
    ((parts.map local_norm_inf).foldl (fun a x => max x a) 0)

/-- A 3-component atom force vector. -/
abbrev Vec3 := R × R × R

/-- Squared magnitude of one atom's force vector. -/
def sqnorm3 (v : Vec3) : R := v.1 * v.1 + v.2.1 * v.2.1 + v.2.2 * v.2.2

/-- The flat force buffer (`fvec`, `nvec = 3*nlocal`) induced by a list of
per-atom force vectors. -/
def flatten3 (atoms : List Vec3) : List R :=
  atoms.flatMap fun v => [v.1, v.2.1, v.2.2]

/-- A rank's partition holding the given atoms and no per-atom extra DOFs. -/
def atomPartition (atoms : List Vec3) : Partition :=
  ⟨flatten3 atoms, []⟩

/-- All local force components a rank contributes to the norms: the flat
atom force buffer followed by every per-atom extra-DOF force buffer. -/
def all_components (p : Partition) : List R :=
  p.fvec ++ p.fextra_atom.flatten

theorem local_norm2_sqr_atomPartition (atoms : List Vec3) :
    local_norm2_sqr (atomPartition atoms) = (atoms.map sqnorm3).sum := by
  induction atoms with
  | nil => simp [local_norm2_sqr, atomPartition, flatten3]
  | cons v rest ih =>
    simp only [local_norm2_sqr, atomPartition, flatten3, List.flatMap_cons,
      List.map_append, List.sum_append, List.map_cons, List.sum_cons,
      List.map_nil, List.sum_nil, sqnorm3] at *
    linarith

theorem fnorm_sqr_atoms (P : List (List Vec3)) :
    fnorm_sqr (P.map atomPartition) [] = (P.flatten.map sqnorm3).sum := by
  induction P with
  | nil => simp [fnorm_sqr]
  | cons l rest ih =>
    simp only [fnorm_sqr, List.map_cons, List.sum_cons, List.flatten_cons,
      List.map_append, List.sum_append, List.map_nil, List.sum_nil] at *
    rw [local_norm2_sqr_atomPartition]
    linarith

/-- Running maximum of absolute values starting from `0`, the accumulation
pattern shared by `local_norm_inf` and the global extra-DOF fold. -/
def maxAbs (l : List R) : R := l.foldl (fun a x => max |x| a) 0

theorem foldl_maxAbs_init (l : List R) :
    ∀ a b : R, l.foldl (fun acc x => max |x| acc) (max a b) =
      max a (l.foldl (fun acc x => max |x| acc) b) := by
  induction l with
  | nil => intro a b; rfl
  | cons x t ih =>
    intro a b
    simp only [List.foldl_cons]
    rw [max_left_comm |x| a b]
    exact ih a (max |x| b)

theorem foldl_maxAbs_le (l : List R) :
    ∀ a : R, a ≤ l.foldl (fun acc x => max |x| acc) a := by
  induction l with
  | nil => intro a; exact le_refl a
  | cons x t ih =>
    intro a
    simp only [List.foldl_cons]
    exact le_trans (le_max_right |x| a) (ih (max |x| a))

theorem maxAbs_nonneg (l : List R) : 0 ≤ maxAbs l := foldl_maxAbs_le l 0

theorem maxAbs_append (l1 l2 : List R) :
    maxAbs (l1 ++ l2) = max (maxAbs l1) (maxAbs l2) := by
  have h0 : maxAbs l1 = max (maxAbs l1) 0 := (max_eq_left (maxAbs_nonneg l1)).symm
  simp only [maxAbs] at *
  rw [List.foldl_append, h0, foldl_maxAbs_init, ← h0]

theorem maxAbs_perm {l1 l2 : List R} (h : l1.Perm l2) : maxAbs l1 = maxAbs l2 :=
  h.foldl_eq' (fun x _ y _ z => max_left_comm |y| |x| z) 0

theorem local_norm_inf_eq_maxAbs (p : Partition) :
    local_norm_inf p = maxAbs (all_components p) := by
  simp only [local_norm_inf, all_components, maxAbs, List.foldl_append,
    List.foldl_flatten]

theorem foldl_max_init (l : List R) :
    ∀ a b : R, l.foldl (fun acc x => max x acc) (max a b) =
      max a (l.foldl (fun acc x => max x acc) b) := by
  induction l with
  | nil => intro a b; rfl
  | cons x t ih =>
    intro a b
    simp only [List.foldl_cons]
    rw [max_left_comm x a b]
    exact ih a (max x b)

theorem max_reduce_eq_maxAbs (parts : List Partition) :
    (parts.map local_norm_inf).foldl (fun a x => max x a) 0 =
      maxAbs ((parts.map all_components).flatten) := by
  induction parts with
  | nil => simp [maxAbs]
  | cons p t ih =>
    simp only [List.map_cons, List.foldl_cons, List.flatten_cons]
    rw [maxAbs_append, local_norm_inf_eq_maxAbs]
    have h0 : max (maxAbs (all_components p)) 0 = maxAbs (all_components p) :=
      max_eq_left (maxAbs_nonneg _)
    rw [← h0, foldl_max_init, ih]

/-- C1: `Min::fnorm_sqr` returns the distributed sum over all partitions of
the squares of every local atom force component plus the squares of every
local per-atom extra-DOF force component, with the squares of the global
extra-DOF forces added after the reduction; with zero extra DOFs it equals
the partition-independent sum over all atoms of the squared magnitude of
each atom's force vector, and with one global extra-DOF force `3` and local
atom forces of squared norm `4` it returns `13`. -/
theorem fnorm_sqr_correct :
    (∀ (parts : List Partition) (fextra : List R),
      fnorm_sqr parts fextra =
        (parts.map local_norm2_sqr).sum + (fextra.map fun x => x * x).sum)
    ∧ (∀ P Q : List (List Vec3), P.flatten.Perm Q.flatten →
        fnorm_sqr (P.map atomPartition) [] = (P.flatten.map sqnorm3).sum ∧
        fnorm_sqr (P.map atomPartition) [] = fnorm_sqr (Q.map atomPartition) [])
    ∧ (∀ parts : List Partition,
        (parts.map local_norm2_sqr).sum = 4 → fnorm_sqr parts [3] = 13) := by
  refine ⟨fun parts fextra => rfl, fun P Q h => ?_, fun parts h => ?_⟩
  · refine ⟨fnorm_sqr_atoms P, ?_⟩
    rw [fnorm_sqr_atoms P, fnorm_sqr_atoms Q]
    exact List.Perm.sum_eq (h.map sqnorm3)
  · simp only [fnorm_sqr, h, List.map_cons, List.map_nil, List.sum_cons,
      List.sum_nil]
    norm_num

/-- Witness for `fnorm_sqr_correct`: two atoms with force vectors `(1,2,0)`
and `(2,0,0)` split two ways, and the `4 + 3² = 13` scenario. -/
theorem fnorm_sqr_correct_witness :
    fnorm_sqr ([[((1 : R), 2, 0)], [(2, 0, 0)]].map atomPartition) [] =
        (([[((1 : R), 2, 0)], [(2, 0, 0)]] : List (List Vec3)).flatten.map
          sqnorm3).sum ∧
    fnorm_sqr ([[((1 : R), 2, 0)], [(2, 0, 0)]].map atomPartition) [] =
      fnorm_sqr ([[((2 : R), 0, 0), (1, 2, 0)]].map atomPartition) [] ∧
    fnorm_sqr [⟨[2], []⟩] [3] = 13 := by
  have hperm :
      ([[((1 : R), 2, 0)], [(2, 0, 0)]] : List (List Vec3)).flatten.Perm
        ([[((2 : R), 0, 0), (1, 2, 0)]] : List (List Vec3)).flatten := by decide
  have h4 : (([⟨[2], []⟩] : List Partition).map local_norm2_sqr).sum = 4 := by
    norm_num [local_norm2_sqr]
  exact ⟨(fnorm_sqr_correct.2.1 _ _ hperm).1,
    (fnorm_sqr_correct.2.1 _ _ hperm).2, fnorm_sqr_correct.2.2 _ h4⟩

/-- C8: `Min::fnorm_inf` is invariant under re-partitioning: any two ways of
splitting the same multiset of atom force components and per-atom extra-DOF
force components across partitions yield the same L∞ value, with the global
extra-DOF absolute values folded in after the max-reduction. -/
theorem fnorm_inf_partition_invariant (P Q : List Partition) (fextra : List R)
    (h : ((P.map all_components).flatten).Perm ((Q.map all_components).flatten)) :
    fnorm_inf P fextra = fnorm_inf Q fextra := by
  unfold fnorm_inf
  rw [max_reduce_eq_maxAbs, max_reduce_eq_maxAbs, maxAbs_perm h]

/-- Witness for `fnorm_inf_partition_invariant`: the components
`{1, -3, 2}` split across one partition versus two. -/
theorem fnorm_inf_partition_invariant_witness :
    fnorm_inf [⟨[1, -3], [[2]]⟩] [5] =
      fnorm_inf [⟨[2], []⟩, ⟨[-3], [[1]]⟩] [5] ∧
    fnorm_inf [⟨[1, -3], [[2]]⟩] [5] = 5 :=
  ⟨fnorm_inf_partition_invariant [⟨[1, -3], [[2]]⟩] [⟨[2], []⟩, ⟨[-3], [[1]]⟩]
      [5] (by decide),
    by norm_num [fnorm_inf, local_norm_inf]⟩

/-- A diagnostic consumer (`Compute`): `matchstep` answers whether this
timestep is one it needs data for. -/
structure Consumer where
  matchstep : Nat → Bool

/-- The four diagnostic-consumer lists built by `Min::ev_setup` (global
energy, per-atom energy, global virial, per-atom virial). -/
structure EvLists where
  elist_global : List Consumer
  elist_atom : List Consumer
  vlist_global : List Consumer
  vlist_atom : List Consumer

/-- The evaluation flags computed by `Min::ev_set`. -/
structure EvFlags where
  eflag : Nat
  vflag : Nat
deriving DecidableEq

/-- `Min::ev_set`: `eflag_global` is always `1`; `eflag_atom` is `2` iff
some per-atom energy consumer matches the step; `vflag_global` is
`virial_style` iff some global virial consumer matches; `vflag_atom` is `4`
iff some per-atom virial consumer matches; the returned `eflag`/`vflag` are
the sums. (The loop over `elist_global` invokes `matchstep` for its side
effect only; its result is ignored.) -/
def ev_set (L : EvLists) (virial_style : Nat) (ntimestep : Nat) : EvFlags :=
  let eflag_global := 1
  let eflag_atom :=
    if L.elist_atom.any fun c => c.matchstep ntimestep then 2 else 0
  let vflag_global :=
    if L.vlist_global.any fun c => c.matchstep ntimestep then virial_style
    else 0
  let vflag_atom :=
    if L.vlist_atom.any fun c => c.matchstep ntimestep then 4 else 0
  ⟨eflag_global + eflag_atom, vflag_global + vflag_atom⟩

/-- C2: `Min::ev_set` always demands global energy (`eflag` is odd, i.e.
its global component `1` is set on every call); per-atom energy is demanded
only if some per-atom energy consumer matches the step (no match forces
`eflag = 1`), and per-atom virial only if some per-atom virial consumer
matches (no match leaves `vflag` with its per-atom component zero). -/
theorem ev_set_spec (L : EvLists) (virial_style ntimestep : Nat) :
    (ev_set L virial_style ntimestep).eflag % 2 = 1
    ∧ ((L.elist_atom.any fun c => c.matchstep ntimestep) = false →
        (ev_set L virial_style ntimestep).eflag = 1)
    ∧ ((L.vlist_atom.any fun c => c.matchstep ntimestep) = false →
        (ev_set L virial_style ntimestep).vflag =
          if L.vlist_global.any fun c => c.matchstep ntimestep
          then virial_style else 0) := by
  refine ⟨?_, fun h => ?_, fun h => ?_⟩
  · by_cases hb : (L.elist_atom.any fun c => c.matchstep ntimestep) = true
    · simp [ev_set, hb]
    · simp [ev_set, hb]
  · simp [ev_set, h]
  · simp [ev_set, h]

/-- Witness for `ev_set_spec`: one consumer per list matching only step 5,
queried at step 7 (no match) with `virial_style = 2`. -/
theorem ev_set_spec_witness :
    (ev_set ⟨[⟨fun s => s == 5⟩], [⟨fun s => s == 5⟩], [⟨fun _ => true⟩],
        [⟨fun s => s == 5⟩]⟩ 2 7).eflag = 1 ∧
    (ev_set ⟨[⟨fun s => s == 5⟩], [⟨fun s => s == 5⟩], [⟨fun _ => true⟩],
        [⟨fun s => s == 5⟩]⟩ 2 7).vflag = 2 := by
  have h := ev_set_spec ⟨[⟨fun s => s == 5⟩], [⟨fun s => s == 5⟩],
    [⟨fun _ => true⟩], [⟨fun s => s == 5⟩]⟩ 2 7
  exact ⟨h.2.1 rfl, by rw [h.2.2 rfl]; rfl⟩

/-- The per-atom extra-DOF registry slice of `Min`'s state: `nextra_atom`
counts registered slots; the parallel arrays are modelled as lists (the
`xextra_atom`/`fextra_atom` pointer arrays carry no registration data and
are represented by the shared slot count). `Pair` plugin references are
modelled as opaque ids. -/
structure Registry where
  nextra_atom : Nat
  requestor : List Nat
  extra_peratom : List Nat
  extra_nlen : List Nat
  extra_max : List R

/-- The parallel arrays all have exactly `nextra_atom` slots. -/
def Registry.wf (r : Registry) : Prop :=
  r.requestor.length = r.nextra_atom ∧
  r.extra_peratom.length = r.nextra_atom ∧
  r.extra_nlen.length = r.nextra_atom ∧
  r.extra_max.length = r.nextra_atom

/-- `Min::request`: reallocate every parallel array to one more slot, write
the owning plugin, components-per-atom count and max-step bound into slot
`nextra_atom`, increment `nextra_atom`, and return `nextra_atom - 1`.
(`extra_nlen` is grown but not written by `request`; the fresh slot's
indeterminate contents are modelled as `0`.) -/
def Registry.request (r : Registry) (pair peratom : Nat) (maxvalue : R) :
    Registry × Nat :=
  let r' : Registry :=
    { nextra_atom := r.nextra_atom + 1
      requestor := r.requestor ++ [pair]
      extra_peratom := r.extra_peratom ++ [peratom]
      extra_nlen := r.extra_nlen ++ [0]
      extra_max := r.extra_max ++ [maxvalue] }
  (r', r'.nextra_atom - 1)

/-- The registry-clearing fragment of `Min::init`: all extra per-atom DOF
slots are freed and the count reset to zero. -/
def Registry.initReset (_ : Registry) : Registry := ⟨0, [], [], [], []⟩

/-- C6: each `Min::request` call grows the four parallel registry buffers by
exactly one slot, stores the owning plugin, components-per-atom count and
max-step bound in the new slot, and returns the zero-based handle equal to
the number of previously registered slots; after `Min::init` resets the
registry, the next registration returns handle `0`. -/
theorem request_spec (r : Registry) (hwf : r.wf) (pair peratom : Nat)
    (maxvalue : R) :
    (r.request pair peratom maxvalue).1.wf
    ∧ (r.request pair peratom maxvalue).2 = r.nextra_atom
    ∧ (r.request pair peratom maxvalue).1.nextra_atom = r.nextra_atom + 1
    ∧ (r.request pair peratom maxvalue).1.requestor.length =
        r.requestor.length + 1
    ∧ (r.request pair peratom maxvalue).1.extra_peratom.length =
        r.extra_peratom.length + 1
    ∧ (r.request pair peratom maxvalue).1.extra_nlen.length =
        r.extra_nlen.length + 1
    ∧ (r.request pair peratom maxvalue).1.extra_max.length =
        r.extra_max.length + 1
    ∧ (r.request pair peratom maxvalue).1.requestor[
        (r.request pair peratom maxvalue).2]? = some pair
    ∧ (r.request pair peratom maxvalue).1.extra_peratom[
        (r.request pair peratom maxvalue).2]? = some peratom
    ∧ (r.request pair peratom maxvalue).1.extra_max[
        (r.request pair peratom maxvalue).2]? = some maxvalue
    ∧ ((r.initReset).request pair peratom maxvalue).2 = 0 := by
  obtain ⟨h1, h2, h3, h4⟩ := hwf
  refine ⟨⟨?_, ?_, ?_, ?_⟩, rfl, rfl, ?_, ?_, ?_, ?_, ?_, ?_, ?_, rfl⟩ <;>
    simp [Registry.request, Registry.wf, h1, h2, h3, h4,
      List.getElem?_concat_length]

/-- Witness for `request_spec`: a fresh registry, then one registration. -/
theorem request_spec_witness :
    ((Registry.initReset ⟨0, [], [], [], []⟩).request 7 1 (1/10)).2 = 0
    ∧ ((Registry.initReset ⟨0, [], [], [], []⟩).request 7 1
        (1/10)).1.requestor[0]? = some 7 := by
  have h := request_spec (Registry.initReset ⟨0, [], [], [], []⟩)
    ⟨rfl, rfl, rfl, rfl⟩ 7 1 (1/10)
  exact ⟨h.2.1, h.2.2.2.2.2.2.2.1⟩

/-- The neighbor-list rebuild cadence settings (`neighbor->every`,
`neighbor->delay`, `neighbor->dist_check`). -/
structure NeighborSettings where
  every : Int
  delay : Int
  dist_check : Int
deriving DecidableEq

/-- The state touched by the cadence snapshot/override fragment of
`Min::init` and its restore in `Min::cleanup`: the neighbor subsystem's
settings, `Min`'s three snapshot fields, and this process's rank
(`comm->me`, warnings are printed by rank 0 only). -/
structure CadenceState where
  me : Nat
  neighbor : NeighborSettings
  neigh_every : Int
  neigh_delay : Int
  neigh_dist_check : Int

/-- The reneighboring-criteria fragment of `Min::init`: snapshot the three
settings, warn (on rank 0) if they differ from `(1, 0, 1)`, then override
them to `every = 1`, `delay = 0`, `dist_check = 1`. Returns the new state
and whether the warning was issued. -/
def init_cadence (s : CadenceState) : CadenceState × Bool :=
  let s1 := { s with
    neigh_every := s.neighbor.every
    neigh_delay := s.neighbor.delay
    neigh_dist_check := s.neighbor.dist_check }
  let warn := (s1.neigh_every != 1 || s1.neigh_delay != 0 ||
    s1.neigh_dist_check != 1) && (s.me == 0)
  ({ s1 with neighbor := ⟨1, 0, 1⟩ }, warn)

/-- The reneighboring-criteria fragment of `Min::cleanup`: restore the
neighbor settings from the three snapshot fields. -/
def cleanup_cadence (s : CadenceState) : CadenceState :=
  { s with neighbor := ⟨s.neigh_every, s.neigh_delay, s.neigh_dist_check⟩ }

theorem neighborSettings_ne_target (n : NeighborSettings) :
    n ≠ (⟨1, 0, 1⟩ : NeighborSettings) ↔
      ¬(n.every = 1 ∧ n.delay = 0 ∧ n.dist_check = 1) := by
  obtain ⟨e, d, c⟩ := n
  simp [NeighborSettings.mk.injEq]

/-- C7: `Min::init` snapshots the three rebuild-cadence settings and
overrides them to rebuild-every-step with no distance check (`(1, 0, 1)`),
warning on rank 0 exactly when the pre-existing settings differed from that
target; `Min::cleanup` restores exactly the snapshotted values, so an
init-then-cleanup pair leaves the cadence unchanged. -/
theorem cadence_round_trip (s : CadenceState) :
    (cleanup_cadence (init_cadence s).1).neighbor = s.neighbor
    ∧ (init_cadence s).1.neighbor = ⟨1, 0, 1⟩
    ∧ ((init_cadence s).2 = true ↔
        (s.neighbor ≠ ⟨1, 0, 1⟩ ∧ s.me = 0)) := by
  refine ⟨rfl, rfl, ?_⟩
  simp only [init_cadence, Bool.and_eq_true, Bool.or_eq_true, bne_iff_ne,
    beq_iff_eq, neighborSettings_ne_target]
  tauto

/-- Zero the first `n` entries of a buffer with zero value `z`, leaving the
remaining entries untouched. -/
def zeroFirst {α : Type} (z : α) : Nat → List α → List α
  | 0, l => l
  | _ + 1, [] => []
  | n + 1, _ :: t => z :: zeroFirst z n t

theorem zeroFirst_length {α : Type} (z : α) :
    ∀ (n : Nat) (l : List α), (zeroFirst z n l).length = l.length := by
  intro n l
  induction l generalizing n with
  | nil => cases n <;> rfl
  | cons x t ih =>
    cases n with
    | zero => rfl
    | succ m => simp [zeroFirst, ih]

theorem zeroFirst_getElem? {α : Type} (z : α) :
    ∀ (n : Nat) (l : List α) (i : Nat),
      (zeroFirst z n l)[i]? =
        if i < n ∧ i < l.length then some z else l[i]? := by
  intro n l
  induction l generalizing n with
  | nil =>
    intro i
    cases n <;> simp [zeroFirst]
  | cons x t ih =>
    intro i
    cases n with
    | zero => simp [zeroFirst]
    | succ m =>
      cases i with
      | zero => simp [zeroFirst]
      | succ j =>
        simp only [zeroFirst, List.getElem?_cons_succ, ih m j,
          List.length_cons]
        by_cases h1 : j < m ∧ j < t.length
        · rw [if_pos h1, if_pos ⟨Nat.succ_lt_succ h1.1, Nat.succ_lt_succ h1.2⟩]
        · rw [if_neg h1, if_neg ?_]
          intro hc
          exact h1 ⟨Nat.lt_of_succ_lt_succ hc.1, Nat.lt_of_succ_lt_succ hc.2⟩

/-- The state read and written by `Min::force_clear`: the Newton flag
(`force->newton`), atom counts, thread count (`comm->nthreads`), the force
buffer (`atom->f`) and the optional torque (`atom->torque`) and electron
force (`atom->erforce`) buffers with their presence flags. -/
structure ClearState where
  newton : Bool
  nlocal : Nat
  nghost : Nat
  nthreads : Nat
  f : List Vec3
  torqueflag : Bool
  torque : List Vec3
  erforceflag : Bool
  erforce : List R

/-- `Min::force_clear`: `nall` counts ghosts only if the Newton flag is
set; the force buffer is zeroed over `nall * nthreads` entries, the torque
and electron-force buffers (when flagged present) over `nall` entries. -/
def force_clear (s : ClearState) : ClearState :=
  let nall := if s.newton then s.nlocal + s.nghost else s.nlocal
  let ntot := nall * s.nthreads
  { s with
    f := zeroFirst (0, 0, 0) ntot s.f
    torque := if s.torqueflag then zeroFirst (0, 0, 0) nall s.torque
      else s.torque
    erforce := if s.erforceflag then zeroFirst 0 nall s.erforce
      else s.erforce }

/-- Counterexample to C4 as stated: with the Newton flag off
(`force->newton == 0`), one local atom and one ghost atom, `force_clear`
zeroes only the local atom's force; the ghost atom's force `(2,2,2)` is
left untouched, so ghost forces are NOT cleared regardless of the Newton
setting. -/
theorem force_clear_ghost_counterexample :
    (force_clear ⟨false, 1, 1, 1, [(1, 1, 1), (2, 2, 2)], false, [], false,
      []⟩).f[1]? = some (2, 2, 2)
    ∧ (some (((2 : R), 2, 2)) ≠ some (((0 : R), 0, 0))) := by
  refine ⟨rfl, ?_⟩
  decide

/-- C4 (amended): `Min::force_clear` zeroes the force components of the
first `nall * nthreads` buffer entries, where `nall` includes the ghost
atoms only when the Newton flag is set; local atoms are always zeroed, and
with Newton off the entries from `nlocal * nthreads` on (the ghost entries)
are untouched. The torque and electron-force buffers are zeroed over `nall`
entries exactly when their presence flags are set. -/
theorem force_clear_correct (s : ClearState) (hthreads : 1 ≤ s.nthreads) :
    (∀ i, i < s.nlocal → i < s.f.length →
      (force_clear s).f[i]? = some (0, 0, 0))
    ∧ (s.newton = true → ∀ i, i < (s.nlocal + s.nghost) * s.nthreads →
        i < s.f.length → (force_clear s).f[i]? = some (0, 0, 0))
    ∧ (s.newton = false → ∀ i, s.nlocal * s.nthreads ≤ i →
        (force_clear s).f[i]? = s.f[i]?)
    ∧ (s.torqueflag = true → ∀ i,
        i < (if s.newton then s.nlocal + s.nghost else s.nlocal) →
        i < s.torque.length → (force_clear s).torque[i]? = some (0, 0, 0))
    ∧ (s.torqueflag = false → (force_clear s).torque = s.torque)
    ∧ (s.erforceflag = true → ∀ i,
        i < (if s.newton then s.nlocal + s.nghost else s.nlocal) →
        i < s.erforce.length → (force_clear s).erforce[i]? = some 0)
    ∧ (s.erforceflag = false → (force_clear s).erforce = s.erforce) := by
  have hall : s.nlocal ≤ (if s.newton then s.nlocal + s.nghost else s.nlocal) := by
    split <;> omega
  have hmul : (if s.newton then s.nlocal + s.nghost else s.nlocal) ≤
      (if s.newton then s.nlocal + s.nghost else s.nlocal) * s.nthreads :=
    Nat.le_mul_of_pos_right _ hthreads
  refine ⟨fun i hi hilen => ?_, fun hn i hi hilen => ?_, fun hn i hi => ?_,
    fun ht i hi hilen => ?_, fun ht => ?_, fun he i hi hilen => ?_,
    fun he => ?_⟩
  · simp only [force_clear, zeroFirst_getElem?]
    exact if_pos ⟨lt_of_lt_of_le hi (le_trans hall hmul), hilen⟩
  · simp only [force_clear, zeroFirst_getElem?, hn, if_true]
    exact if_pos ⟨hi, hilen⟩
  · have hx : (force_clear s).f =
        zeroFirst (0, 0, 0) (s.nlocal * s.nthreads) s.f := by
      simp [force_clear, hn]
    rw [hx, zeroFirst_getElem?]
    refine if_neg ?_
    rintro ⟨hc, -⟩
    omega
  · simp only [force_clear, ht, if_true, zeroFirst_getElem?]
    exact if_pos ⟨hi, hilen⟩
  · simp [force_clear, ht]
  · simp only [force_clear, he, if_true, zeroFirst_getElem?]
    exact if_pos ⟨hi, hilen⟩
  · simp [force_clear, he]

/-- Witness for `force_clear_correct`: one local and one ghost atom with
Newton on (everything cleared) and Newton off (ghost entry untouched). -/
theorem force_clear_correct_witness :
    (force_clear ⟨true, 1, 1, 1, [(5, 5, 5), (6, 6, 6)], true,
      [(7, 7, 7), (8, 8, 8)], true, [9, 9]⟩).f[1]? = some (0, 0, 0)
    ∧ (force_clear ⟨true, 1, 1, 1, [(5, 5, 5), (6, 6, 6)], true,
      [(7, 7, 7), (8, 8, 8)], true, [9, 9]⟩).torque[1]? = some (0, 0, 0)
    ∧ (force_clear ⟨true, 1, 1, 1, [(5, 5, 5), (6, 6, 6)], true,
      [(7, 7, 7), (8, 8, 8)], true, [9, 9]⟩).erforce[1]? = some 0
    ∧ (force_clear ⟨false, 1, 1, 1, [(5, 5, 5), (6, 6, 6)], false, [], false,
      []⟩).f[1]? = some (6, 6, 6) := by
  have h1 := force_clear_correct ⟨true, 1, 1, 1, [(5, 5, 5), (6, 6, 6)], true,
    [(7, 7, 7), (8, 8, 8)], true, [9, 9]⟩ (by decide)
  have h2 := force_clear_correct ⟨false, 1, 1, 1, [(5, 5, 5), (6, 6, 6)],
    false, [], false, []⟩ (by decide)
  exact ⟨h1.2.1 rfl 1 (by decide) (by decide),
    h1.2.2.2.1 rfl 1 (by decide) (by decide),
    h1.2.2.2.2.2.1 rfl 1 (by decide) (by decide),
    h2.2.2.1 rfl 1 (by decide)⟩

/-- The post-loop actions of `Min::run`, as an event trace. -/
inductive RunEvent
  | addstep_compute_all (ntimestep : Nat)
  | energy_force_call (resetflag : Nat)
  | output_write (ntimestep : Nat)
deriving DecidableEq

/-- The output subsystem's next-due-step bookkeeping touched by
`Min::run` (`output->next_dump[*]`, `next_dump_any`, `next_restart`,
`next_thermo`, plus `update->restrict_output` and
`output->restart_every`). -/
structure OutputState where
  restrict_output : Nat
  next_dump : List Nat
  next_dump_any : Nat
  restart_every : Nat
  next_restart : Nat
  next_thermo : Nat
deriving DecidableEq

/-- The `Min` / `update` state touched by `Min::run`. -/
structure RunState where
  ntimestep : Nat
  nsteps : Nat
  niter : Nat
  output : OutputState
deriving DecidableEq

/-- `Min::stopstrings`: the human-readable termination reasons, indexed by
the code returned by `iterate`. -/
def stopstrings (n : Nat) : String :=
  ["max iterations", "max force evaluations", "energy tolerance",
   "force tolerance", "search direction is not downhill",
   "linesearch alpha is zero", "forces are zero",
   "quadratic factors are zero", "trust region too small",
   "HFTN minimizer error"].getD n ""

/-- `Min::run` after `iterate` has returned `stop_condition`: when the code
is nonzero (not "max iterations"), set `update->nsteps` to `niter`, set the
dump/restart next-due steps to the current step (dumps and restart only
when `restrict_output == 0`, restart additionally only when
`restart_every` is nonzero), set `next_thermo` to the current step, add the
step to all computes, call `energy_force(0)`, and write output; when the
code is zero nothing happens. Returns the new state and the event trace. -/
def run (s : RunState) (stop_condition : Nat) : RunState × List RunEvent :=
  if stop_condition ≠ 0 then
    let o := s.output
    let o1 :=
      if o.restrict_output = 0 then
        { o with
          next_dump := o.next_dump.map fun _ => s.ntimestep
          next_dump_any := s.ntimestep
          next_restart :=
            if o.restart_every ≠ 0 then s.ntimestep else o.next_restart }
      else o
    let o2 := { o1 with next_thermo := s.ntimestep }
    ({ s with nsteps := s.niter, output := o2 },
     [RunEvent.addstep_compute_all s.ntimestep,
      RunEvent.energy_force_call 0,
      RunEvent.output_write s.ntimestep])
  else (s, [])

/-- Counterexample to C3 as stated: at a state with a true stopping
condition (`stop_condition = 3`, "force tolerance") the full post-loop
trace contains exactly one evaluation, `energy_force(0)` — reset is
DISABLED (`resetflag = 0`), contradicting "energy_force called with
resetflag set". -/
theorem run_reset_counterexample :
    (run ⟨10, 100, 5, ⟨0, [0], 0, 1, 0, 0⟩⟩ 3).2 =
      [RunEvent.addstep_compute_all 10, RunEvent.energy_force_call 0,
       RunEvent.output_write 10]
    ∧ ((run ⟨10, 100, 5, ⟨0, [0], 0, 1, 0, 0⟩⟩ 3).2.all fun e =>
        match e with
        | RunEvent.energy_force_call r => r == 0
        | _ => true) = true := ⟨rfl, rfl⟩

/-- C3 (amended): for every `run(n)` whose `iterate` call returns a
termination code other than "exhausted iteration budget" (code `0`), `run`
sets the thermo next-due step to the current timestep (and, when output is
unrestricted, every dump's next-due step, and the restart next-due step
when restarts are enabled), registers the step with all computes, performs
one additional evaluation with reset DISABLED (`energy_force(0)`), and
signals the output subsystem to write final state; when the code is
"exhausted iteration budget" none of these post-loop actions occur. -/
theorem run_correct (s : RunState) (stop_condition : Nat) :
    (stop_condition ≠ 0 →
      (run s stop_condition).1.output.next_thermo = s.ntimestep
      ∧ (s.output.restrict_output = 0 →
          (run s stop_condition).1.output.next_dump =
            s.output.next_dump.map (fun _ => s.ntimestep)
          ∧ (run s stop_condition).1.output.next_dump_any = s.ntimestep
          ∧ (s.output.restart_every ≠ 0 →
              (run s stop_condition).1.output.next_restart = s.ntimestep))
      ∧ (run s stop_condition).2 =
          [RunEvent.addstep_compute_all s.ntimestep,
           RunEvent.energy_force_call 0,
           RunEvent.output_write s.ntimestep]
      ∧ (run s stop_condition).1.nsteps = s.niter)
    ∧ (stop_condition = 0 → run s stop_condition = (s, [])) := by
  constructor
  · intro h
    refine ⟨by simp [run, h], fun hr => ?_, by simp [run, h], by simp [run, h]⟩
    refine ⟨by simp [run, h, hr], by simp [run, h, hr], fun hre => ?_⟩
    simp [run, h, hr, hre]
  · intro h
    simp [run, h]

/-- Witness for `run_correct`: a concrete state run with stopping code `3`
("force tolerance") and with code `0` ("max iterations"). -/
theorem run_correct_witness :
    (run ⟨10, 100, 5, ⟨0, [7, 8], 3, 2, 4, 6⟩⟩ 3).1.output.next_thermo = 10
    ∧ (run ⟨10, 100, 5, ⟨0, [7, 8], 3, 2, 4, 6⟩⟩ 3).1.output.next_dump =
        [10, 10]
    ∧ (run ⟨10, 100, 5, ⟨0, [7, 8], 3, 2, 4, 6⟩⟩ 3).2 =
        [RunEvent.addstep_compute_all 10, RunEvent.energy_force_call 0,
         RunEvent.output_write 10]
    ∧ run ⟨10, 100, 5, ⟨0, [7, 8], 3, 2, 4, 6⟩⟩ 0 =
        (⟨10, 100, 5, ⟨0, [7, 8], 3, 2, 4, 6⟩⟩, []) := by
  have h := run_correct ⟨10, 100, 5, ⟨0, [7, 8], 3, 2, 4, 6⟩⟩ 3
  have h0 := run_correct ⟨10, 100, 5, ⟨0, [7, 8], 3, 2, 4, 6⟩⟩ 0
  refine ⟨(h.1 (by decide)).1, ?_, (h.1 (by decide)).2.2.1, h0.2 rfl⟩
  exact ((h.1 (by decide)).2.1 rfl).1

/-- The observable steps of `Min::setup`, in program order. -/
inductive SetupEvent
  | comm_setup_ev
  | exchange_ev
  | borders_ev
  | neighbor_build_ev
  | reset_vectors_ev
  | ev_set_ev
  | force_clear_ev
  | setup_pre_force_ev
  | pair_compute_ev
  | bond_compute_ev
  | angle_compute_ev
  | dihedral_compute_ev
  | improper_compute_ev
  | kspace_compute_ev
  | reverse_comm_ev
  | modify_setup_ev
  | output_setup_ev
deriving DecidableEq

/-- Whether an event invokes a force-field contributor. -/
def isForceCompute : SetupEvent → Bool
  | SetupEvent.pair_compute_ev => true
  | SetupEvent.bond_compute_ev => true
  | SetupEvent.angle_compute_ev => true
  | SetupEvent.dihedral_compute_ev => true
  | SetupEvent.improper_compute_ev => true
  | SetupEvent.kspace_compute_ev => true
  | _ => false

/-- The collaborator state `Min::setup` reads: the global extra-DOF count
reported by `modify->min_dof()`, whether the `thermo_pe` compute exists, the
number of per-atom extra-DOF slots registered by `setup_style()`, the
algorithm's `searchflag`, and which force-field contributors exist. -/
structure SetupEnv where
  min_dof : Nat
  has_thermo_pe : Bool
  style_requests : Nat
  searchflag : Nat
  molecular : Bool
  has_pair : Bool
  has_bond : Bool
  has_angle : Bool
  has_dihedral : Bool
  has_improper : Bool
  has_kspace : Bool
  newton : Bool

/-- `Min::setup`: obtain `nextra_global` from `modify->min_dof()`, abort if
the `thermo_pe` compute is missing, run `setup_style()` (which registers
`style_requests` per-atom slots), do the domain/communication/neighbor
setup, then abort with `error->all` if extra DOFs exist while
`searchflag == 0`; only after that do forces get evaluated. Returns the
event trace up to the abort point and the fatal error message, if any. -/
def setup (env : SetupEnv) : List SetupEvent × Option String :=
  if env.has_thermo_pe = false then
    ([], some "Minimization could not find thermo_pe compute")
  else
    let nextra_global := env.min_dof
    let nextra_atom := env.style_requests
    let pre := [SetupEvent.comm_setup_ev, SetupEvent.exchange_ev,
      SetupEvent.borders_ev, SetupEvent.neighbor_build_ev]
    if nextra_global ≠ 0 ∧ env.searchflag = 0 then
      (pre, some "Cannot use a damped dynamics min style with fix box/relax")
    else if nextra_atom ≠ 0 ∧ env.searchflag = 0 then
      (pre, some "Cannot use a damped dynamics min style with per-atom DOF")
    else
      (pre ++ [SetupEvent.reset_vectors_ev, SetupEvent.ev_set_ev,
          SetupEvent.force_clear_ev, SetupEvent.setup_pre_force_ev]
        ++ (if env.has_pair then [SetupEvent.pair_compute_ev] else [])
        ++ (if env.molecular then
              (if env.has_bond then [SetupEvent.bond_compute_ev] else [])
              ++ (if env.has_angle then [SetupEvent.angle_compute_ev] else [])
              ++ (if env.has_dihedral then [SetupEvent.dihedral_compute_ev]
                  else [])
              ++ (if env.has_improper then [SetupEvent.improper_compute_ev]
                  else [])
            else [])
        ++ (if env.has_kspace then [SetupEvent.kspace_compute_ev] else [])
        ++ (if env.newton then [SetupEvent.reverse_comm_ev] else [])
        ++ [SetupEvent.modify_setup_ev, SetupEvent.output_setup_ev], none)

/-- C5: if any extra DOF is registered (global count nonzero or at least
one per-atom slot) and the search algorithm reports `searchflag == 0`,
`Min::setup` aborts with a fatal configuration error, and the trace up to
the abort contains no force-field contributor invocation. -/
theorem setup_aborts_before_force_eval (env : SetupEnv)
    (hdof : env.min_dof ≠ 0 ∨ env.style_requests ≠ 0)
    (hsf : env.searchflag = 0) :
    (setup env).2.isSome = true
    ∧ ∀ e ∈ (setup env).1, isForceCompute e = false := by
  by_cases hpe : env.has_thermo_pe = false
  · refine ⟨by simp [setup, hpe], fun e he => ?_⟩
    simp [setup, hpe] at he
  · rcases hdof with hg | ha
    · refine ⟨by simp [setup, hpe, hg, hsf], fun e he => ?_⟩
      simp [setup, hpe, hg, hsf] at he
      rcases he with h | h | h | h <;> subst h <;> rfl
    · by_cases hg : env.min_dof ≠ 0
      · refine ⟨by simp [setup, hpe, hg, hsf], fun e he => ?_⟩
        simp [setup, hpe, hg, hsf] at he
        rcases he with h | h | h | h <;> subst h <;> rfl
      · refine ⟨by simp [setup, hpe, hg, ha, hsf], fun e he => ?_⟩
        simp [setup, hpe, hg, ha, hsf] at he
        rcases he with h | h | h | h <;> subst h <;> rfl

/-- Witness for `setup_aborts_before_force_eval`: one global extra DOF, a
non-searching (damped-dynamics style) algorithm, every contributor
present. -/
theorem setup_aborts_before_force_eval_witness :
    (setup ⟨1, true, 0, 0, true, true, true, true, true, true, true,
      true⟩).2 = some "Cannot use a damped dynamics min style with fix box/relax"
    ∧ ((setup ⟨1, true, 0, 0, true, true, true, true, true, true, true,
        true⟩).1.all fun e => isForceCompute e = false) := by
  have h := setup_aborts_before_force_eval
    ⟨1, true, 0, 0, true, true, true, true, true, true, true, true⟩
    (Or.inl (by decide)) rfl
  refine ⟨rfl, ?_⟩
  rw [List.all_eq_true]
  intro e he
  simp only [decide_eq_true_eq]
  exact h.2 e he

/-- The simulation state read and mutated by `Min::energy_force`: the
timestep, owned and ghost atom positions, the force buffer, the global
extra-DOF force buffer, the reference coordinates stored in the MINIMIZE
fix (`fix_minimize`), whether the minimizer's internal pointer aliases are
fresh (`reset_vectors`), and the four `update->*flag_*` invocation-step
markers written by `ev_set`. -/
structure MDState where
  ntimestep : Nat
  x : List Vec3
  xghost : List Vec3
  f : List Vec3
  fextra : List R
  x0 : List Vec3
  vecs_current : Bool
  eflag_global_step : Nat
  eflag_atom_step : Nat
  vflag_global_step : Nat
  vflag_atom_step : Nat

/-- The collaborators of `Min::energy_force`, modelled as pure functions:
`decide_rebuild` is `neighbor->decide()`; `forward_ghosts` is
`comm->forward_comm()` (new ghost positions from owned positions);
`migrate`/`migrate_ghosts` are the full pbc/exchange/borders/build path;
`compute_forces` is the net result of `force_clear` plus every force-field
contributor plus `comm->reverse_comm()`; `compute_fextra` is the
`min_xf_get`/`min_energy` harvest of global extra-DOF forces; `pe_scalar`
is `pe_compute->compute_scalar()`; `min_energy` is the scalar returned by
`modify->min_energy`; `reset_coords` is `fix_minimize->reset_coords()`. -/
structure EFEnv where
  lists : EvLists
  virial_style : Nat
  nextra_global : Nat
  normflag : Bool
  natoms : R
  decide_rebuild : MDState → Bool
  forward_ghosts : List Vec3 → List Vec3
  migrate : List Vec3 → List Vec3
  migrate_ghosts : List Vec3 → List Vec3
  compute_forces : List Vec3 → List Vec3 → EvFlags → List Vec3
  compute_fextra : List Vec3 → List R
  pe_scalar : List Vec3 → EvFlags → R
  min_energy : List Vec3 → R
  reset_coords : List Vec3 → List Vec3 → List Vec3

/-- The observable effects of one `Min::energy_force` call. -/
inductive EFEvent
  | forward_comm_ev
  | rebuild_ev
  | reset_coords_ev
  | reset_vectors_ev
deriving DecidableEq

/-- `Min::ev_set` including its writes of the `update->*flag_*` markers:
each marker is set to the current step exactly when the corresponding flag
component is nonzero. -/
def ev_set_state (L : EvLists) (virial_style : Nat) (s : MDState) :
    MDState × EvFlags :=
  let flags := ev_set L virial_style s.ntimestep
  ({ s with
      eflag_global_step := s.ntimestep
      eflag_atom_step :=
        if L.elist_atom.any fun c => c.matchstep s.ntimestep then s.ntimestep
        else s.eflag_atom_step
      vflag_global_step :=
        if (if L.vlist_global.any fun c => c.matchstep s.ntimestep
            then virial_style else 0) ≠ 0 then s.ntimestep
        else s.vflag_global_step
      vflag_atom_step :=
        if L.vlist_atom.any fun c => c.matchstep s.ntimestep then s.ntimestep
        else s.vflag_atom_step }, flags)

/-- `Min::energy_force(resetflag)`: ask `neighbor->decide()`; on no rebuild
do a forward communication of ghost positions only; on rebuild run the full
migration path; then `ev_set`, force clearing and recomputation, extra-DOF
harvest, and the energy aggregation (`pe_scalar`, plus `min_energy` when
global extra DOFs exist, normalized by atom count when thermo normalizes);
finally, only if a rebuild happened: reset the reference coordinates when
`resetflag` is set, and refresh the minimizer's pointer aliases
(`reset_vectors`) unconditionally. Returns the energy, the new state, and
the event trace. -/
def energy_force (env : EFEnv) (s : MDState) (resetflag : Nat) :
    R × MDState × List EFEvent :=
  let nflag := env.decide_rebuild s
  let s1 :=
    if nflag = false then { s with xghost := env.forward_ghosts s.x }
    else { s with
      x := env.migrate s.x
      xghost := env.migrate_ghosts (env.migrate s.x) }
  let evs1 :=
    if nflag = false then [EFEvent.forward_comm_ev] else [EFEvent.rebuild_ev]
  let sf := ev_set_state env.lists env.virial_style s1
  let s2 := sf.1
  let flags := sf.2
  let f' := env.compute_forces s2.x s2.xghost flags
  let fextra' := env.compute_fextra s2.x
  let energy0 := env.pe_scalar s2.x flags
  let energy1 :=
    if env.nextra_global ≠ 0 then energy0 + env.min_energy s2.x else energy0
  let energy := if env.normflag then energy1 / env.natoms else energy1
  let s3 := { s2 with f := f', fextra := fextra' }
  let s4 :=
    if nflag then
      (if resetflag ≠ 0 then
        { s3 with x0 := env.reset_coords s3.x0 s3.x, vecs_current := true }
      else { s3 with vecs_current := true })
    else s3
  let evs2 :=
    if nflag then
      (if resetflag ≠ 0 then
        [EFEvent.reset_coords_ev, EFEvent.reset_vectors_ev]
      else [EFEvent.reset_vectors_ev])
    else []
  (energy, s4, evs1 ++ evs2)

theorem energy_force_energy_no_rebuild (env : EFEnv) (s : MDState)
    (resetflag : Nat) (h : env.decide_rebuild s = false) :
    (energy_force env s resetflag).1 =
      (if env.normflag then
        (if env.nextra_global ≠ 0 then
          env.pe_scalar s.x (ev_set env.lists env.virial_style s.ntimestep) +
            env.min_energy s.x
        else env.pe_scalar s.x
          (ev_set env.lists env.virial_style s.ntimestep)) / env.natoms
      else
        (if env.nextra_global ≠ 0 then
          env.pe_scalar s.x (ev_set env.lists env.virial_style s.ntimestep) +
            env.min_energy s.x
        else env.pe_scalar s.x
          (ev_set env.lists env.virial_style s.ntimestep))) := by
  simp [energy_force, ev_set_state, h]

theorem energy_force_state_no_rebuild (env : EFEnv) (s : MDState)
    (resetflag : Nat) (h : env.decide_rebuild s = false) :
    (energy_force env s resetflag).2.1.x = s.x
    ∧ (energy_force env s resetflag).2.1.ntimestep = s.ntimestep := by
  simp [energy_force, ev_set_state, h]

/-- C9: two consecutive `energy_force(0)` calls with no intervening state
change and no rebuild due on either call return the same energy value. -/
theorem energy_force_deterministic (env : EFEnv) (s : MDState)
    (h1 : env.decide_rebuild s = false)
    (h2 : env.decide_rebuild (energy_force env s 0).2.1 = false) :
    (energy_force env (energy_force env s 0).2.1 0).1 =
      (energy_force env s 0).1 := by
  rw [energy_force_energy_no_rebuild env _ 0 h2,
    energy_force_energy_no_rebuild env s 0 h1,
    (energy_force_state_no_rebuild env s 0 h1).1,
    (energy_force_state_no_rebuild env s 0 h1).2]

/-- A concrete collaborator environment in which no rebuild is ever due:
potential energy is the squared force norm of the owned positions. -/
def envNoRebuild : EFEnv :=
  ⟨⟨[], [], [], []⟩, 1, 0, false, 1,
    fun _ => false, fun _ => [], id, fun _ => [],
    fun x _ _ => x, fun _ => [], fun x _ => (x.map sqnorm3).sum,
    fun _ => 0, fun old _ => old⟩

/-- A concrete collaborator environment in which a rebuild is always due. -/
def envRebuild : EFEnv :=
  ⟨⟨[], [], [], []⟩, 1, 0, false, 1,
    fun _ => true, fun _ => [], id, fun _ => [],
    fun x _ _ => x, fun _ => [], fun x _ => (x.map sqnorm3).sum,
    fun _ => 0, fun _ cur => cur⟩

/-- A concrete starting state with one owned atom at `(1, 0, 0)`. -/
def mdState0 : MDState :=
  ⟨3, [(1, 0, 0)], [], [(2, 2, 2)], [], [(5, 5, 5)], false, 0, 0, 0, 0⟩

/-- Witness for `energy_force_deterministic`: in `envNoRebuild` starting
from `mdState0`, both consecutive calls return energy `1`. -/
theorem energy_force_deterministic_witness :
    (energy_force envNoRebuild (energy_force envNoRebuild mdState0 0).2.1
        0).1 = (energy_force envNoRebuild mdState0 0).1
    ∧ (energy_force envNoRebuild mdState0 0).1 = 1 := by
  refine ⟨energy_force_deterministic envNoRebuild mdState0 rfl rfl, ?_⟩
  norm_num [energy_force, ev_set_state, envNoRebuild, mdState0, sqnorm3]

/-- C10: in every `energy_force` call in which a rebuild occurred, the
pointer aliases are refreshed (`reset_vectors` runs) regardless of
`resetflag`, while the recorded reference positions are reset exactly when
`resetflag` is also set (in particular they are untouched when
`resetflag = 0`); when no rebuild occurred, neither the reference positions
nor the pointer aliases are touched. -/
theorem energy_force_frame (env : EFEnv) (s : MDState) (resetflag : Nat) :
    (env.decide_rebuild s = true →
      EFEvent.reset_vectors_ev ∈ (energy_force env s resetflag).2.2
      ∧ (EFEvent.reset_coords_ev ∈ (energy_force env s resetflag).2.2 ↔
          resetflag ≠ 0)
      ∧ (resetflag = 0 → (energy_force env s resetflag).2.1.x0 = s.x0))
    ∧ (env.decide_rebuild s = false →
      EFEvent.reset_vectors_ev ∉ (energy_force env s resetflag).2.2
      ∧ EFEvent.reset_coords_ev ∉ (energy_force env s resetflag).2.2
      ∧ (energy_force env s resetflag).2.1.x0 = s.x0
      ∧ (energy_force env s resetflag).2.1.vecs_current = s.vecs_current) := by
  constructor
  · intro h
    by_cases hr : resetflag = 0
    · subst hr
      refine ⟨?_, ?_, fun _ => ?_⟩ <;>
        simp [energy_force, ev_set_state, h]
    · refine ⟨?_, ?_, fun hc => absurd hc hr⟩ <;>
        simp [energy_force, ev_set_state, h, hr]
  · intro h
    refine ⟨?_, ?_, ?_, ?_⟩ <;> simp [energy_force, ev_set_state, h]

/-- Witness for `energy_force_frame`: `envRebuild` with `resetflag` `1` and
`0`, and `envNoRebuild`, all from `mdState0`. -/
theorem energy_force_frame_witness :
    (EFEvent.reset_coords_ev ∈ (energy_force envRebuild mdState0 1).2.2
      ∧ EFEvent.reset_vectors_ev ∈ (energy_force envRebuild mdState0 1).2.2)
    ∧ (EFEvent.reset_coords_ev ∉ (energy_force envRebuild mdState0 0).2.2
      ∧ EFEvent.reset_vectors_ev ∈ (energy_force envRebuild mdState0 0).2.2
      ∧ (energy_force envRebuild mdState0 0).2.1.x0 = mdState0.x0)
    ∧ (EFEvent.reset_vectors_ev ∉ (energy_force envNoRebuild mdState0 7).2.2
      ∧ (energy_force envNoRebuild mdState0 7).2.1.x0 = mdState0.x0) := by
  have h1 := (energy_force_frame envRebuild mdState0 1).1 rfl
  have h0 := (energy_force_frame envRebuild mdState0 0).1 rfl
  have hn := (energy_force_frame envNoRebuild mdState0 7).2 rfl
  exact ⟨⟨h1.2.1.mpr (by decide), h1.1⟩,
    ⟨fun hc => absurd (h0.2.1.mp hc) (by decide), h0.1, h0.2.2 rfl⟩,
    ⟨hn.1, hn.2.2.1⟩⟩
